import Mathlib

/-!
Verification development for the browser MMORPG game client (`game.js`).

The client keeps a mirror of the shared world (players, avatars), derives a
clamped camera viewport from the local player position, turns held arrow keys
into a prioritized movement direction with a retransmission timer, and runs a
per-peer near/far proximity state machine that emits greet and farewell chat
messages.

The embedding below translates the state and the state-mutating methods of
the `GameClient` class into pure Lean functions over an explicit state record.
JavaScript `Map`s are modelled as insertion-ordered association lists with
the `Map.set` / `Map.get` / `Map.delete` semantics, JavaScript `Set`s as
insertion-ordered duplicate-free lists.  Side effects are made observable:
every message actually written to the (open) socket is appended to a `wire`
log, and every invocation of the greeting / farewell emitters is appended to
an `events` log (the code's call of `askPlayerToGreet` / `askPlayerToSayGoodbye`
is the emission of a Greet / Farewell event; the chat send inside those
functions is additionally gated on the socket being open, exactly as in the
source).  A thrown-and-caught JavaScript `TypeError` (access of a field of
`undefined`) is modelled by returning the state as mutated up to the point of
the throw, since `socket.onmessage` catches all exceptions from the handlers.
-/

namespace GameClient

/-- Movement directions of the wire protocol (`move` command payloads). -/
inductive Direction
  | up
  | down
  | left
  | right
  | stop
deriving DecidableEq, Repr

/-- Keyboard key codes relevant to the client; `other` stands for any
non-arrow, non-Enter key. -/
inductive KeyCode
  | arrowUp
  | arrowDown
  | arrowLeft
  | arrowRight
  | enter
  | other
deriving DecidableEq, Repr

/-- The guard `['ArrowUp','ArrowDown','ArrowLeft','ArrowRight'].includes(event.code)`
used by `handleKeyDown` and `handleKeyUp`. -/
def KeyCode.isArrow : KeyCode → Bool
  | KeyCode.arrowUp => true
  | KeyCode.arrowDown => true
  | KeyCode.arrowLeft => true
  | KeyCode.arrowRight => true
  | _ => false

/-- Facing directions stored in player records. -/
inductive Facing
  | north
  | south
  | east
  | west
deriving DecidableEq, Repr

/-- A player record, mirrored wholesale from the server
(`playerId -> player data` entries of `this.players`). -/
structure Player where
  id : String
  x : ℚ
  y : ℚ
  facing : Facing
  animationFrame : ℕ
  username : String
  avatar : String
deriving DecidableEq, Repr

/-- An avatar definition (`avatarName -> avatar data`); only the `name` key is
inspected by the state logic, the frame images are opaque to it. -/
structure Avatar where
  name : String
deriving DecidableEq, Repr

/-- Events recording each invocation of `askPlayerToGreet` (Greet) and
`askPlayerToSayGoodbye` (Farewell), tagged by the peer id the proximity loop
was processing. -/
inductive GameEvent
  | greet (id : String)
  | farewell (id : String)
deriving DecidableEq, Repr

/-- Messages actually written to the socket by `this.socket.send`. -/
inductive OutMsg
  | joinGame (username : String)
  | move (d : Direction)
  | chat (text : String)
deriving DecidableEq, Repr

/-- Per-peer proximity state, the `'near'` / `'far'` strings of
`this.playerProximityState`. -/
inductive ProxState
  | near
  | far
deriving DecidableEq, Repr

/-- JavaScript `Map.prototype.get`, on an insertion-ordered association list. -/
def mapGet {α : Type} : List (String × α) → String → Option α
  | [], _ => none
  | e :: rest, k => if e.1 = k then some e.2 else mapGet rest k

/-- JavaScript `Map.prototype.set`: replace the value in place if the key is
present, else append a new entry. -/
def mapSet {α : Type} : List (String × α) → String → α → List (String × α)
  | [], k, v => [(k, v)]
  | e :: rest, k, v => if e.1 = k then (k, v) :: rest else e :: mapSet rest k v

/-- JavaScript `Map.prototype.delete` (keyed maps here never hold duplicate
keys, so removing every entry with the key is the same operation). -/
def mapDelete {α : Type} : List (String × α) → String → List (String × α)
  | [], _ => []
  | e :: rest, k => if e.1 = k then mapDelete rest k else e :: mapDelete rest k

/-- JavaScript `Set.prototype.add` on an insertion-ordered list. -/
def setAdd {α : Type} [DecidableEq α] (s : List α) (x : α) : List α :=
  if x ∈ s then s else s ++ [x]

/-- JavaScript `Set.prototype.delete`. -/
def setDelete {α : Type} [DecidableEq α] : List α → α → List α
  | [], _ => []
  | y :: rest, x => if y = x then setDelete rest x else y :: setDelete rest x

/-- The whole mutable state of the `GameClient` instance, restricted to the
fields that the state-synchronization, movement and proximity logic reads or
writes, extended with the `wire` and `events` observation logs and a
`timers` ledger of the interval timers currently scheduled (`setInterval`
handles paired with the direction their callback re-sends). -/
structure ClientState where
  playerId : Option String
  playerPosition : ℚ × ℚ
  players : List (String × Player)
  avatars : List (String × Avatar)
  viewport : ℚ × ℚ
  canvasWidth : ℚ
  canvasHeight : ℚ
  worldWidth : ℚ
  worldHeight : ℚ
  activeKeys : List KeyCode
  isMoving : Bool
  movementInterval : Option (ℕ × Direction)
  timers : List (ℕ × Direction)
  nextTimerId : ℕ
  greetedPlayers : List String
  playerProximityState : List (String × ProxState)
  socketOpen : Bool
  worldImageLoaded : Bool
  wire : List OutMsg
  events : List GameEvent
deriving Repr

/-- The constructor state of `GameClient` (canvas size comes from the browser
window, hence a parameter; the socket starts out not yet open). -/
def initialState (cw ch : ℚ) : ClientState where
  playerId := none
  playerPosition := (0, 0)
  players := []
  avatars := []
  viewport := (0, 0)
  canvasWidth := cw
  canvasHeight := ch
  worldWidth := 2048
  worldHeight := 2048
  activeKeys := []
  isMoving := false
  movementInterval := none
  timers := []
  nextTimerId := 0
  greetedPlayers := []
  playerProximityState := []
  socketOpen := false
  worldImageLoaded := false
  wire := []
  events := []

/-- The `sendMoveCommand` method: the command reaches the socket only when the
socket exists and is open, otherwise it is silently discarded. -/
def sendMoveCommand (d : Direction) (s : ClientState) : ClientState :=
  if s.socketOpen then { s with wire := s.wire ++ [OutMsg.move d] } else s

/-- The `getPrimaryDirection` method, as a function of the held-key set:
priority order up, then down, then left, then right, else stop. -/
def getPrimaryDirection (keys : List KeyCode) : Direction :=
  if KeyCode.arrowUp ∈ keys then Direction.up
  else if KeyCode.arrowDown ∈ keys then Direction.down
  else if KeyCode.arrowLeft ∈ keys then Direction.left
  else if KeyCode.arrowRight ∈ keys then Direction.right
  else Direction.stop

/-- The timer-handle removal performed by `clearInterval(handle)` on the
ledger of scheduled timers. -/
def timersErase : List (ℕ × Direction) → ℕ → List (ℕ × Direction)
  | [], _ => []
  | t :: rest, i => if t.1 = i then timersErase rest i else t :: timersErase rest i

/-- The `startContinuousMovement` method: clear any existing interval, then,
if the primary direction is not stop, send one immediate command, set
`isMoving`, and schedule a fresh 50 ms interval re-sending that direction.
Note the source clears the old interval but does not null the handle field,
and it re-sends and reschedules even when the direction is unchanged. -/
def startContinuousMovement (s : ClientState) : ClientState :=
  let s1 := match s.movementInterval with
    | some t => { s with timers := timersErase s.timers t.1 }
    | none => s
  let dir := getPrimaryDirection s1.activeKeys
  if dir ≠ Direction.stop then
    let s2 := sendMoveCommand dir s1
    let s3 := { s2 with isMoving := true }
    { s3 with
      timers := s3.timers ++ [(s3.nextTimerId, dir)]
      movementInterval := some (s3.nextTimerId, dir)
      nextTimerId := s3.nextTimerId + 1 }
  else s1

/-- The `stopContinuousMovement` method: clear and null the interval, then
send a single stop command if currently moving. -/
def stopContinuousMovement (s : ClientState) : ClientState :=
  let s1 := match s.movementInterval with
    | some t => { s with timers := timersErase s.timers t.1, movementInterval := none }
    | none => s
  if s1.isMoving then
    let s2 := sendMoveCommand Direction.stop s1
    { s2 with isMoving := false }
  else s1

/-- The `handleKeyDown` method (arrow-key branch; other keys fall through). -/
def handleKeyDown (c : KeyCode) (s : ClientState) : ClientState :=
  if c.isArrow then
    startContinuousMovement { s with activeKeys := setAdd s.activeKeys c }
  else s

/-- The `handleKeyUp` method: remove the key; if no keys remain stop, else
recompute and restart. -/
def handleKeyUp (c : KeyCode) (s : ClientState) : ClientState :=
  if c.isArrow then
    let s1 := { s with activeKeys := setDelete s.activeKeys c }
    if s1.activeKeys = [] then stopContinuousMovement s1
    else startContinuousMovement s1
  else s

/-- A raw keyboard event. -/
inductive KeyEvent
  | down (c : KeyCode)
  | up (c : KeyCode)
deriving DecidableEq, Repr

/-- Dispatch of one keyboard event to the handlers. -/
def applyKeyEvent (s : ClientState) : KeyEvent → ClientState
  | KeyEvent.down c => handleKeyDown c s
  | KeyEvent.up c => handleKeyUp c s

/-- A whole keyboard interaction history applied in order. -/
def runKeys (evs : List KeyEvent) (s : ClientState) : ClientState :=
  evs.foldl applyKeyEvent s

/-- The `updateViewport` method:
`viewport.x = Math.max(0, Math.min(position.x - canvas.width / 2, worldWidth - canvas.width))`
and symmetrically for `y`. -/
def updateViewport (s : ClientState) : ClientState :=
  { s with viewport :=
      (max 0 (min (s.playerPosition.1 - s.canvasWidth / 2) (s.worldWidth - s.canvasWidth)),
       max 0 (min (s.playerPosition.2 - s.canvasHeight / 2) (s.worldHeight - s.canvasHeight))) }

/-- Modelled from the spec: `clamp(v, lo, hi)` with the lower bound winning,
as in "origin.x = clamp(localPlayer.x - viewSize.width/2, 0, worldSize.width -
viewSize.width)".  Stated separately from `updateViewport` so the source
computation can be compared against the spec formula. -/
def clampSpec (v lo hi : ℚ) : ℚ :=
  max lo (min v hi)

/-- The `this.proximityThreshold = 100` constant (pixels). -/
def proximityThreshold : ℚ := 100

/-- Squared Euclidean distance between two player records.  The source
computes `Math.sqrt(dx*dx + dy*dy)` and compares it with the threshold; over
the reals `sqrt d ≤ t` is equivalent to `d ≤ t ^ 2` for `t ≥ 0`, so nearness
is embedded as the squared comparison `distSq p q ≤ proximityThreshold ^ 2`. -/
def distSq (p q : Player) : ℚ :=
  (p.x - q.x) ^ 2 + (p.y - q.y) ^ 2

/-- Nearness predicate of `checkProximityGreetings`
(`distance <= this.proximityThreshold`, inclusive boundary). -/
def isNear (p q : Player) : Prop :=
  distSq p q ≤ proximityThreshold ^ 2

instance (p q : Player) : Decidable (isNear p q) := by
  unfold isNear
  infer_instance

/-- The greeting chat text sent by `askPlayerToGreet`. -/
def greetText : String := "hii! nice to meet you Roger"

/-- The farewell chat text sent by `askPlayerToSayGoodbye`. -/
def byeText : String := "bye Roger!"

/-- The `askPlayerToGreet` method.  Its invocation is the Greet event (logged
unconditionally); the chat message reaches the wire only when the socket is
open — when it is not, the method returns without sending. -/
def askPlayerToGreet (pid : String) (s : ClientState) : ClientState :=
  let s1 := { s with events := s.events ++ [GameEvent.greet pid] }
  if s1.socketOpen then { s1 with wire := s1.wire ++ [OutMsg.chat greetText] } else s1

/-- The `askPlayerToSayGoodbye` method, instrumented like `askPlayerToGreet`. -/
def askPlayerToSayGoodbye (pid : String) (s : ClientState) : ClientState :=
  let s1 := { s with events := s.events ++ [GameEvent.farewell pid] }
  if s1.socketOpen then { s1 with wire := s1.wire ++ [OutMsg.chat byeText] } else s1

/-- The persisted proximity state looked up with default
(`this.playerProximityState.get(playerId) || 'far'`). -/
def currentProx (s : ClientState) (pid : String) : ProxState :=
  (mapGet s.playerProximityState pid).getD ProxState.far

/-- One iteration of the `checkProximityGreetings` loop body, for the peer
entry `e`, with the local id and the local player record fetched before the
loop. -/
def proxStep (ourId : String) (ourP : Player) (s : ClientState) (e : String × Player) : ClientState :=
  if e.1 = ourId then s
  else if isNear ourP e.2 ∧ currentProx s e.1 = ProxState.far ∧ e.1 ∉ s.greetedPlayers then
    let s1 := askPlayerToGreet e.1 s
    let s2 := { s1 with greetedPlayers := setAdd s1.greetedPlayers e.1 }
    { s2 with playerProximityState := mapSet s2.playerProximityState e.1 ProxState.near }
  else if ¬ isNear ourP e.2 ∧ currentProx s e.1 = ProxState.near then
    let s1 := askPlayerToSayGoodbye e.1 s
    { s1 with playerProximityState := mapSet s1.playerProximityState e.1 ProxState.far }
  else if isNear ourP e.2 then
    { s with playerProximityState := mapSet s.playerProximityState e.1 ProxState.near }
  else
    { s with playerProximityState := mapSet s.playerProximityState e.1 ProxState.far }

/-- The `checkProximityGreetings` method: bail out when unjoined or when the
local record is missing, else run the loop body over every registry entry. -/
def checkProximityGreetings (s : ClientState) : ClientState :=
  match s.playerId with
  | none => s
  | some pid =>
    match mapGet s.players pid with
    | none => s
    | some ourP => s.players.foldl (proxStep pid ourP) s

/-- The `draw` method, restricted to its state effects: it returns early when
the world image has not loaded, and its only non-rendering effect is the
proximity check it runs at the end of every frame. -/
def draw (s : ClientState) : ClientState :=
  if s.worldImageLoaded then checkProximityGreetings s else s

/-- One proximity evaluation tick on a given registry snapshot: the peers may
have moved since the previous tick, so each tick runs on the registry current
at that moment. -/
def runProx (pss : List (List (String × Player))) (s : ClientState) : ClientState :=
  pss.foldl (fun acc ps => checkProximityGreetings { acc with players := ps }) s

/-- Inbound `join_game` payload; `Option` marks fields that may be absent
from the received JSON. -/
structure JoinGameMsg where
  success : Bool
  playerId : Option String
  players : Option (List (String × Player))
  avatars : Option (List (String × Avatar))
  errorText : Option String
deriving Repr

/-- A parsed inbound message, by `action`; `unknown` covers unrecognized
action values. -/
inductive InMsg
  | joinGame (m : JoinGameMsg)
  | playersMoved (players : Option (List (String × Player)))
  | playerJoined (player : Option Player) (avatar : Option Avatar)
  | playerLeft (playerId : Option String)
  | unknown
deriving Repr

/-- The `handleJoinGame` method.  On success it first assigns
`this.playerId = message.playerId`, then iterates `Object.entries(message.players)`
and `Object.entries(message.avatars)` — each of which throws (and is caught by
`onmessage`) when the field is absent, leaving the mutations made so far in
place — then sets the local position and viewport if the local record is
found, and draws.  On failure it only logs. -/
def handleJoinGame (m : JoinGameMsg) (s : ClientState) : ClientState :=
  if m.success then
    let s1 := { s with playerId := m.playerId }
    match m.players with
    | none => s1
    | some ps =>
      let s2 := { s1 with players := ps.foldl (fun acc (e : String × Player) => mapSet acc e.1 e.2) s1.players }
      match m.avatars with
      | none => s2
      | some avs =>
        let s3 := { s2 with avatars := avs.foldl (fun acc (e : String × Avatar) => mapSet acc e.1 e.2) s2.avatars }
        let s4 := match s3.playerId with
          | none => s3
          | some pid =>
            match mapGet s3.players pid with
            | none => s3
            | some ourP => updateViewport { s3 with playerPosition := (ourP.x, ourP.y) }
        draw s4
  else s

/-- The `handlePlayersMoved` method: full-record upsert per entry, refreshing
the local position and viewport when the entry is the local player, then a
draw.  A missing `players` field throws before any mutation. -/
def handlePlayersMoved (players? : Option (List (String × Player))) (s : ClientState) : ClientState :=
  match players? with
  | none => s
  | some ps =>
    let s1 := ps.foldl (fun acc e =>
      let acc1 := { acc with players := mapSet acc.players e.1 e.2 }
      if acc1.playerId = some e.1 then
        updateViewport { acc1 with playerPosition := (e.2.x, e.2.y) }
      else acc1) s
    draw s1

/-- The `handlePlayerJoined` method.  `message.player.id` throws before any
mutation when `player` is absent; `message.avatar.name` throws after the
player upsert when `avatar` is absent. -/
def handlePlayerJoined (player? : Option Player) (avatar? : Option Avatar) (s : ClientState) : ClientState :=
  match player? with
  | none => s
  | some p =>
    let s1 := { s with players := mapSet s.players p.id p }
    match avatar? with
    | none => s1
    | some a => draw { s1 with avatars := mapSet s1.avatars a.name a }

/-- The `handlePlayerLeft` method: delete the registry entry, the greeted
flag and the proximity state for the departing id, then draw.  A missing
`playerId` field makes all three deletions no-ops on the string-keyed maps. -/
def handlePlayerLeft (playerId? : Option String) (s : ClientState) : ClientState :=
  match playerId? with
  | none => draw s
  | some pid =>
    draw { s with
      players := mapDelete s.players pid
      greetedPlayers := setDelete s.greetedPlayers pid
      playerProximityState := mapDelete s.playerProximityState pid }

/-- The `handleMessage` dispatcher (unknown actions are logged and ignored). -/
def handleMessage (m : InMsg) (s : ClientState) : ClientState :=
  match m with
  | InMsg.joinGame jm => handleJoinGame jm s
  | InMsg.playersMoved ps => handlePlayersMoved ps s
  | InMsg.playerJoined p a => handlePlayerJoined p a s
  | InMsg.playerLeft pid => handlePlayerLeft pid s
  | InMsg.unknown => s

/-- The `socket.onmessage` callback: `JSON.parse` failure (`none`) is caught
and logged with no state mutation; a parsed message is dispatched, with any
exception thrown by a handler caught after the mutations it already made. -/
def onMessage (raw : Option InMsg) (s : ClientState) : ClientState :=
  match raw with
  | none => s
  | some m => handleMessage m s

/-- Count of Greet events for a given peer id in an event log. -/
def greetCount (pid : String) : List GameEvent → ℕ
  | [] => 0
  | e :: rest => (if e = GameEvent.greet pid then 1 else 0) + greetCount pid rest

/-- Count of Farewell events for a given peer id in an event log. -/
def farewellCount (pid : String) : List GameEvent → ℕ
  | [] => 0
  | e :: rest => (if e = GameEvent.farewell pid then 1 else 0) + farewellCount pid rest

/-- The per-id registry upsert performed by the handlers
(`this.players.set(playerId, player)`). -/
def applyPlayerUpdate (m : List (String × Player)) (pid : String) (p : Player) : List (String × Player) :=
  mapSet m pid p

/-! ### Basic lemmas about the map, set and counter operations -/

theorem mapGet_mapSet_self {α : Type} (m : List (String × α)) (k : String) (v : α) :
    mapGet (mapSet m k v) k = some v := by
  induction m with
  | nil => simp [mapGet, mapSet]
  | cons e rest ih =>
    by_cases h : e.1 = k
    · simp [mapGet, mapSet, h]
    · simp [mapGet, mapSet, h, ih]

theorem mapGet_mapSet_ne {α : Type} (m : List (String × α)) (k k' : String) (v : α)
    (h : k ≠ k') : mapGet (mapSet m k v) k' = mapGet m k' := by
  induction m with
  | nil => simp [mapGet, mapSet, h]
  | cons e rest ih =>
    by_cases he : e.1 = k
    · simp [mapGet, mapSet, he, h]
    · by_cases he2 : e.1 = k'
      · have hks : k' ≠ k := fun hh => h hh.symm
        simp [mapGet, mapSet, he, he2, hks]
      · simp [mapGet, mapSet, he, he2, ih]

theorem mapGet_mapDelete_self {α : Type} (m : List (String × α)) (k : String) :
    mapGet (mapDelete m k) k = none := by
  induction m with
  | nil => simp [mapGet, mapDelete]
  | cons e rest ih =>
    by_cases h : e.1 = k
    · simp [mapDelete, h, ih]
    · simp [mapGet, mapDelete, h, ih]

theorem mapGet_mapDelete_ne {α : Type} (m : List (String × α)) (k k' : String)
    (h : k ≠ k') : mapGet (mapDelete m k) k' = mapGet m k' := by
  induction m with
  | nil => simp [mapGet, mapDelete]
  | cons e rest ih =>
    by_cases he : e.1 = k
    · have : e.1 ≠ k' := by rw [he]; exact h
      simp [mapGet, mapDelete, he, this, ih, h]
    · simp [mapGet, mapDelete, he, ih]

theorem mem_setAdd_iff {α : Type} [DecidableEq α] (s : List α) (x y : α) :
    x ∈ setAdd s y ↔ x ∈ s ∨ x = y := by
  unfold setAdd
  split_ifs with h
  · constructor
    · exact fun hx => Or.inl hx
    · rintro (hx | rfl) <;> [exact hx; exact h]
  · simp

theorem mem_setAdd_self {α : Type} [DecidableEq α] (s : List α) (x : α) :
    x ∈ setAdd s x := by
  rw [mem_setAdd_iff]; exact Or.inr rfl

theorem mem_setDelete_iff {α : Type} [DecidableEq α] (s : List α) (x y : α) :
    x ∈ setDelete s y ↔ x ∈ s ∧ x ≠ y := by
  induction s with
  | nil => simp [setDelete]
  | cons z rest ih =>
    by_cases h : z = y
    · subst h
      rw [setDelete, if_pos rfl, ih]
      constructor
      · rintro ⟨hx, hne⟩
        exact ⟨List.mem_cons_of_mem _ hx, hne⟩
      · rintro ⟨hx, hne⟩
        rcases List.mem_cons.mp hx with rfl | hx2
        · exact absurd rfl hne
        · exact ⟨hx2, hne⟩
    · rw [setDelete, if_neg h]
      constructor
      · intro hx
        rcases List.mem_cons.mp hx with rfl | hx2
        · exact ⟨List.mem_cons_self _ _, fun hh => h hh⟩
        · rcases ih.mp hx2 with ⟨ha, hb⟩
          exact ⟨List.mem_cons_of_mem _ ha, hb⟩
      · rintro ⟨hx, hne⟩
        rcases List.mem_cons.mp hx with rfl | hx2
        · exact List.mem_cons_self _ _
        · exact List.mem_cons_of_mem _ (ih.mpr ⟨hx2, hne⟩)

theorem greetCount_append (pid : String) (l1 l2 : List GameEvent) :
    greetCount pid (l1 ++ l2) = greetCount pid l1 + greetCount pid l2 := by
  induction l1 with
  | nil => simp [greetCount]
  | cons e rest ih => simp [greetCount, ih]; ring

theorem farewellCount_append (pid : String) (l1 l2 : List GameEvent) :
    farewellCount pid (l1 ++ l2) = farewellCount pid l1 + farewellCount pid l2 := by
  induction l1 with
  | nil => simp [farewellCount]
  | cons e rest ih => simp [farewellCount, ih]; ring

/-- Number of entries of an association list carrying a given key. -/
def keyCount {α : Type} (k : String) : List (String × α) → ℕ
  | [] => 0
  | e :: rest => (if e.1 = k then 1 else 0) + keyCount k rest

theorem keyCount_append {α : Type} (k : String) (l1 l2 : List (String × α)) :
    keyCount k (l1 ++ l2) = keyCount k l1 + keyCount k l2 := by
  induction l1 with
  | nil => simp [keyCount]
  | cons e rest ih => simp [keyCount, ih]; ring

theorem keyCount_mapDelete {α : Type} (m : List (String × α)) (k : String) :
    keyCount k (mapDelete m k) = 0 := by
  induction m with
  | nil => simp [mapDelete, keyCount]
  | cons e rest ih =>
    by_cases h : e.1 = k
    · simp [mapDelete, h, ih]
    · simp [mapDelete, keyCount, h, ih]

theorem mapSet_of_keyCount_zero {α : Type} (m : List (String × α)) (k : String) (v : α)
    (h : keyCount k m = 0) : mapSet m k v = m ++ [(k, v)] := by
  induction m with
  | nil => simp [mapSet]
  | cons e rest ih =>
    simp only [keyCount] at h
    by_cases he : e.1 = k
    · simp [he] at h
    · simp [he] at h
      simp [mapSet, he, ih h]

theorem keyCount_mapSet_self {α : Type} (m : List (String × α)) (k : String) (v : α)
    (h : keyCount k m = 0) : keyCount k (mapSet m k v) = 1 := by
  rw [mapSet_of_keyCount_zero m k v h, keyCount_append, h, keyCount]
  simp [keyCount]

theorem mapSet_idem {α : Type} (m : List (String × α)) (k : String) (v : α) :
    mapSet (mapSet m k v) k v = mapSet m k v := by
  induction m with
  | nil => simp [mapSet]
  | cons e rest ih =>
    by_cases h : e.1 = k
    · simp [mapSet, h]
    · simp [mapSet, h, ih]

/-! ### Normal forms for the two chat emitters -/

theorem askPlayerToGreet_eq (pid : String) (s : ClientState) :
    askPlayerToGreet pid s =
      { s with
        events := s.events ++ [GameEvent.greet pid]
        wire := s.wire ++ if s.socketOpen then [OutMsg.chat greetText] else [] } := by
  unfold askPlayerToGreet
  split_ifs with h <;> simp [h]

theorem askPlayerToSayGoodbye_eq (pid : String) (s : ClientState) :
    askPlayerToSayGoodbye pid s =
      { s with
        events := s.events ++ [GameEvent.farewell pid]
        wire := s.wire ++ if s.socketOpen then [OutMsg.chat byeText] else [] } := by
  unfold askPlayerToSayGoodbye
  split_ifs with h <;> simp [h]

/-! ### Frame lemmas: what one proximity loop iteration leaves untouched -/

theorem proxStep_players (ourId : String) (ourP : Player) (s : ClientState) (e : String × Player) :
    (proxStep ourId ourP s e).players = s.players := by
  simp only [proxStep, askPlayerToGreet_eq, askPlayerToSayGoodbye_eq]
  split_ifs <;> rfl

theorem proxStep_playerId (ourId : String) (ourP : Player) (s : ClientState) (e : String × Player) :
    (proxStep ourId ourP s e).playerId = s.playerId := by
  simp only [proxStep, askPlayerToGreet_eq, askPlayerToSayGoodbye_eq]
  split_ifs <;> rfl

theorem proxStep_socketOpen (ourId : String) (ourP : Player) (s : ClientState) (e : String × Player) :
    (proxStep ourId ourP s e).socketOpen = s.socketOpen := by
  simp only [proxStep, askPlayerToGreet_eq, askPlayerToSayGoodbye_eq]
  split_ifs <;> rfl

theorem proxStep_wire_closed (ourId : String) (ourP : Player) (s : ClientState) (e : String × Player)
    (h : s.socketOpen = false) : (proxStep ourId ourP s e).wire = s.wire := by
  simp only [proxStep, askPlayerToGreet_eq, askPlayerToSayGoodbye_eq, h]
  split_ifs <;> simp_all

/-! ### Component normal forms for one proximity loop iteration -/

/-- Guard of the greet branch of `checkProximityGreetings` for entry `e`. -/
def greetCond (ourId : String) (ourP : Player) (s : ClientState) (e : String × Player) : Prop :=
  e.1 ≠ ourId ∧ isNear ourP e.2 ∧ currentProx s e.1 = ProxState.far ∧ e.1 ∉ s.greetedPlayers

/-- Guard of the farewell branch of `checkProximityGreetings` for entry `e`. -/
def farewellCond (ourId : String) (ourP : Player) (s : ClientState) (e : String × Player) : Prop :=
  e.1 ≠ ourId ∧ ¬ isNear ourP e.2 ∧ currentProx s e.1 = ProxState.near

instance (ourId : String) (ourP : Player) (s : ClientState) (e : String × Player) :
    Decidable (greetCond ourId ourP s e) := by
  unfold greetCond
  infer_instance

instance (ourId : String) (ourP : Player) (s : ClientState) (e : String × Player) :
    Decidable (farewellCond ourId ourP s e) := by
  unfold farewellCond
  infer_instance

theorem proxStep_events_eq (ourId : String) (ourP : Player) (s : ClientState) (e : String × Player) :
    (proxStep ourId ourP s e).events =
      s.events ++
        (if greetCond ourId ourP s e then [GameEvent.greet e.1]
         else if farewellCond ourId ourP s e then [GameEvent.farewell e.1]
         else []) := by
  simp only [proxStep, askPlayerToGreet_eq, askPlayerToSayGoodbye_eq, greetCond, farewellCond]
  split_ifs <;> simp_all

theorem proxStep_greeted_eq (ourId : String) (ourP : Player) (s : ClientState) (e : String × Player) :
    (proxStep ourId ourP s e).greetedPlayers =
      (if greetCond ourId ourP s e then setAdd s.greetedPlayers e.1 else s.greetedPlayers) := by
  simp only [proxStep, askPlayerToGreet_eq, askPlayerToSayGoodbye_eq, greetCond]
  split_ifs <;> simp_all

theorem proxStep_prox_eq (ourId : String) (ourP : Player) (s : ClientState) (e : String × Player) :
    (proxStep ourId ourP s e).playerProximityState =
      (if e.1 = ourId then s.playerProximityState
       else mapSet s.playerProximityState e.1
         (if isNear ourP e.2 then ProxState.near else ProxState.far)) := by
  simp only [proxStep, askPlayerToGreet_eq, askPlayerToSayGoodbye_eq]
  split_ifs <;> simp_all

/-! ### The greet potential: greet count plus pending-greet allowance

For a fixed peer id, `greetCount + (1 if the greeted flag is unset else 0)`
is left exactly unchanged by every proximity loop iteration: the only way the
count grows is the greet branch, which simultaneously sets the flag. -/

/-- Greet count for a peer plus one pending greet while its flag is unset. -/
def greetPotential (pid : String) (s : ClientState) : ℕ :=
  greetCount pid s.events + (if pid ∈ s.greetedPlayers then 0 else 1)

theorem proxStep_greetPotential (ourId pid : String) (ourP : Player) (s : ClientState)
    (e : String × Player) :
    greetPotential pid (proxStep ourId ourP s e) = greetPotential pid s := by
  unfold greetPotential
  rw [proxStep_events_eq, proxStep_greeted_eq]
  by_cases hg : greetCond ourId ourP s e
  · rw [if_pos hg, if_pos hg]
    by_cases hpe : e.1 = pid
    · subst hpe
      simp [greetCount_append, greetCount, mem_setAdd_self, hg.2.2.2]
    · simp [greetCount_append, greetCount, hpe, mem_setAdd_iff, Ne.symm hpe]
  · rw [if_neg hg, if_neg hg]
    by_cases hf : farewellCond ourId ourP s e
    · simp [hf, greetCount_append, greetCount]
    · simp [hf, greetCount_append, greetCount]

theorem proxStep_flag_mono (ourId pid : String) (ourP : Player) (s : ClientState)
    (e : String × Player) (h : pid ∈ s.greetedPlayers) :
    pid ∈ (proxStep ourId ourP s e).greetedPlayers := by
  rw [proxStep_greeted_eq]
  split_ifs with hg
  · exact (mem_setAdd_iff _ _ _).mpr (Or.inl h)
  · exact h

/-- A loop iteration for a different peer does not touch this peer's greet
count, farewell count, greeted flag or proximity entry. -/
theorem proxStep_ne (ourId pid : String) (ourP : Player) (s : ClientState)
    (e : String × Player) (hne : e.1 ≠ pid) :
    greetCount pid (proxStep ourId ourP s e).events = greetCount pid s.events ∧
    farewellCount pid (proxStep ourId ourP s e).events = farewellCount pid s.events ∧
    ((pid ∈ (proxStep ourId ourP s e).greetedPlayers) ↔ pid ∈ s.greetedPlayers) ∧
    mapGet (proxStep ourId ourP s e).playerProximityState pid
      = mapGet s.playerProximityState pid := by
  refine ⟨?_, ?_, ?_, ?_⟩
  · rw [proxStep_events_eq, greetCount_append]
    split_ifs <;> simp [greetCount, hne]
  · rw [proxStep_events_eq, farewellCount_append]
    split_ifs <;> simp [farewellCount, hne]
  · rw [proxStep_greeted_eq]
    split_ifs with hg
    · rw [mem_setAdd_iff]
      simp [Ne.symm hne]
    · exact Iff.rfl
  · rw [proxStep_prox_eq]
    split_ifs with h0 h1
    · rfl
    · exact mapGet_mapSet_ne _ _ _ _ hne
    · exact mapGet_mapSet_ne _ _ _ _ hne

/-- The loop iteration for the peer itself: the greet delta is 1 exactly on a
far-to-near transition with the flag unset, the farewell delta is 1 exactly
on a near-to-far transition (whatever the flag), and the flag afterwards is
its old value or-ed with the greet condition. -/
theorem proxStep_self (ourId pid : String) (ourP p : Player) (s : ClientState)
    (hne : pid ≠ ourId) :
    greetCount pid (proxStep ourId ourP s (pid, p)).events
      = greetCount pid s.events +
        (if isNear ourP p ∧ currentProx s pid = ProxState.far ∧ pid ∉ s.greetedPlayers
         then 1 else 0) ∧
    farewellCount pid (proxStep ourId ourP s (pid, p)).events
      = farewellCount pid s.events +
        (if ¬ isNear ourP p ∧ currentProx s pid = ProxState.near then 1 else 0) ∧
    ((pid ∈ (proxStep ourId ourP s (pid, p)).greetedPlayers) ↔
      (pid ∈ s.greetedPlayers ∨
        (isNear ourP p ∧ currentProx s pid = ProxState.far ∧ pid ∉ s.greetedPlayers))) := by
  have hgc : greetCond ourId ourP s (pid, p) ↔
      (isNear ourP p ∧ currentProx s pid = ProxState.far ∧ pid ∉ s.greetedPlayers) := by
    simp [greetCond, hne]
  have hfc : farewellCond ourId ourP s (pid, p) ↔
      (¬ isNear ourP p ∧ currentProx s pid = ProxState.near) := by
    simp [farewellCond, hne]
  refine ⟨?_, ?_, ?_⟩
  · rw [proxStep_events_eq, greetCount_append]
    by_cases hg : isNear ourP p ∧ currentProx s pid = ProxState.far ∧ pid ∉ s.greetedPlayers
    · rw [if_pos (hgc.mpr hg), if_pos hg]
      simp [greetCount]
    · rw [if_neg (fun hh => hg (hgc.mp hh)), if_neg hg]
      split_ifs with hf
      · simp [greetCount]
      · simp [greetCount]
  · rw [proxStep_events_eq, farewellCount_append]
    by_cases hf : ¬ isNear ourP p ∧ currentProx s pid = ProxState.near
    · have hng : ¬ greetCond ourId ourP s (pid, p) := fun hh => hf.1 (hgc.mp hh).1
      rw [if_neg hng, if_pos (hfc.mpr hf), if_pos hf]
      simp [farewellCount]
    · rw [if_neg hf]
      by_cases hg2 : greetCond ourId ourP s (pid, p)
      · rw [if_pos hg2]
        simp [farewellCount]
      · rw [if_neg hg2, if_neg (fun hh => hf (hfc.mp hh))]
        simp [farewellCount]
  · rw [proxStep_greeted_eq]
    by_cases hg : isNear ourP p ∧ currentProx s pid = ProxState.far ∧ pid ∉ s.greetedPlayers
    · rw [if_pos (hgc.mpr hg)]
      simp [mem_setAdd_self, hg]
    · rw [if_neg (fun hh => hg (hgc.mp hh))]
      simp [hg]

/-! ### Lemmas about the whole proximity loop (a fold over the registry) -/

theorem foldProx_greetPotential (ourId pid : String) (ourP : Player)
    (l : List (String × Player)) :
    ∀ s : ClientState,
      greetPotential pid (l.foldl (proxStep ourId ourP) s) = greetPotential pid s := by
  induction l with
  | nil => intro s; rfl
  | cons e rest ih =>
    intro s
    rw [List.foldl_cons, ih, proxStep_greetPotential]

theorem foldProx_flag_mono (ourId pid : String) (ourP : Player)
    (l : List (String × Player)) :
    ∀ s : ClientState, pid ∈ s.greetedPlayers →
      pid ∈ (l.foldl (proxStep ourId ourP) s).greetedPlayers := by
  induction l with
  | nil => intro s h; exact h
  | cons e rest ih =>
    intro s h
    rw [List.foldl_cons]
    exact ih _ (proxStep_flag_mono ourId pid ourP s e h)

theorem foldProx_players (ourId : String) (ourP : Player) (l : List (String × Player)) :
    ∀ s : ClientState, (l.foldl (proxStep ourId ourP) s).players = s.players := by
  induction l with
  | nil => intro s; rfl
  | cons e rest ih =>
    intro s
    rw [List.foldl_cons, ih, proxStep_players]

theorem foldProx_playerId (ourId : String) (ourP : Player) (l : List (String × Player)) :
    ∀ s : ClientState, (l.foldl (proxStep ourId ourP) s).playerId = s.playerId := by
  induction l with
  | nil => intro s; rfl
  | cons e rest ih =>
    intro s
    rw [List.foldl_cons, ih, proxStep_playerId]

theorem foldProx_wire_closed (ourId : String) (ourP : Player) (l : List (String × Player)) :
    ∀ s : ClientState, s.socketOpen = false →
      (l.foldl (proxStep ourId ourP) s).wire = s.wire ∧
      (l.foldl (proxStep ourId ourP) s).socketOpen = false := by
  induction l with
  | nil => intro s h; exact ⟨rfl, h⟩
  | cons e rest ih =>
    intro s h
    rw [List.foldl_cons]
    have hso : (proxStep ourId ourP s e).socketOpen = false := by
      rw [proxStep_socketOpen]; exact h
    obtain ⟨w, o⟩ := ih _ hso
    exact ⟨w.trans (proxStep_wire_closed ourId ourP s e h), o⟩

/-- A fold over entries that never mention this peer id preserves all of the
peer's observables. -/
theorem foldProx_keyZero (ourId pid : String) (ourP : Player) :
    ∀ (l : List (String × Player)), keyCount pid l = 0 →
    ∀ s : ClientState,
      greetCount pid ((l.foldl (proxStep ourId ourP) s)).events = greetCount pid s.events ∧
      farewellCount pid ((l.foldl (proxStep ourId ourP) s)).events = farewellCount pid s.events ∧
      ((pid ∈ (l.foldl (proxStep ourId ourP) s).greetedPlayers) ↔ pid ∈ s.greetedPlayers) ∧
      mapGet (l.foldl (proxStep ourId ourP) s).playerProximityState pid
        = mapGet s.playerProximityState pid := by
  intro l
  induction l with
  | nil => intro _ s; exact ⟨rfl, rfl, Iff.rfl, rfl⟩
  | cons e rest ih =>
    intro h s
    by_cases he : e.1 = pid
    · simp [keyCount, he] at h
    · simp [keyCount, he] at h
      obtain ⟨a1, a2, a3, a4⟩ := proxStep_ne ourId pid ourP s e he
      obtain ⟨b1, b2, b3, b4⟩ := ih h (proxStep ourId ourP s e)
      rw [List.foldl_cons]
      exact ⟨b1.trans a1, b2.trans a2, b3.trans a3, b4.trans a4⟩

/-- Splitting an association list that carries a key exactly once. -/
theorem keyCount_one_decomp {α : Type} (m : List (String × α)) (k : String)
    (hc : keyCount k m = 1) :
    ∃ l1 v l2, m = l1 ++ (k, v) :: l2 ∧ keyCount k l1 = 0 ∧ keyCount k l2 = 0 := by
  induction m with
  | nil => simp [keyCount] at hc
  | cons e rest ih =>
    by_cases he : e.1 = k
    · refine ⟨[], e.2, rest, ?_, rfl, ?_⟩
      · rw [List.nil_append]
        rw [show ((k, e.2) : String × α) = e from by rw [← he]]
      · simp [keyCount, he] at hc
        exact hc
    · simp only [keyCount, if_neg he, Nat.zero_add] at hc
      obtain ⟨l1, v, l2, hm, hz1, hz2⟩ := ih hc
      exact ⟨e :: l1, v, l2, by rw [List.cons_append, hm], by simp [keyCount, he, hz1], hz2⟩

theorem mapGet_append_keyZero {α : Type} (l1 rest : List (String × α)) (k : String)
    (h : keyCount k l1 = 0) : mapGet (l1 ++ rest) k = mapGet rest k := by
  induction l1 with
  | nil => rfl
  | cons e tl ih =>
    by_cases he : e.1 = k
    · simp [keyCount, he] at h
    · simp only [keyCount, if_neg he, Nat.zero_add] at h
      rw [List.cons_append, mapGet, if_neg he, ih h]

/-- Effect of the whole proximity loop on the one entry of the registry that
carries this peer id: the per-tick greet and farewell deltas and the
resulting greeted flag, all expressed over the state at the start of the
tick. -/
theorem foldProx_delta (ourId pid : String) (ourP p : Player)
    (l1 l2 : List (String × Player))
    (h1 : keyCount pid l1 = 0) (h2 : keyCount pid l2 = 0) (hne : pid ≠ ourId)
    (s : ClientState) :
    greetCount pid (((l1 ++ (pid, p) :: l2).foldl (proxStep ourId ourP) s)).events
      = greetCount pid s.events +
        (if isNear ourP p ∧ currentProx s pid = ProxState.far ∧ pid ∉ s.greetedPlayers
         then 1 else 0) ∧
    farewellCount pid (((l1 ++ (pid, p) :: l2).foldl (proxStep ourId ourP) s)).events
      = farewellCount pid s.events +
        (if ¬ isNear ourP p ∧ currentProx s pid = ProxState.near then 1 else 0) ∧
    ((pid ∈ ((l1 ++ (pid, p) :: l2).foldl (proxStep ourId ourP) s).greetedPlayers) ↔
      (pid ∈ s.greetedPlayers ∨
        (isNear ourP p ∧ currentProx s pid = ProxState.far ∧ pid ∉ s.greetedPlayers))) := by
  rw [List.foldl_append, List.foldl_cons]
  obtain ⟨m1, m2, m3, m4⟩ := foldProx_keyZero ourId pid ourP l1 h1 s
  have hcur : currentProx (l1.foldl (proxStep ourId ourP) s) pid = currentProx s pid := by
    unfold currentProx
    rw [m4]
  obtain ⟨d1, d2, d3⟩ :=
    proxStep_self ourId pid ourP p (l1.foldl (proxStep ourId ourP) s) hne
  obtain ⟨f1, f2, f3, f4⟩ := foldProx_keyZero ourId pid ourP l2 h2
    (proxStep ourId ourP (l1.foldl (proxStep ourId ourP) s) (pid, p))
  refine ⟨?_, ?_, ?_⟩
  · rw [f1, d1, m1, hcur]
    simp only [m3]
  · rw [f2, d2, m2, hcur]
  · rw [f3, d3, hcur]
    simp only [m3]

/-! ### Lemmas about one whole proximity evaluation tick -/

theorem checkProx_unjoined (s : ClientState) (h : s.playerId = none) :
    checkProximityGreetings s = s := by
  unfold checkProximityGreetings
  rw [h]

theorem checkProx_noLocalRecord (s : ClientState) (ourId : String)
    (h1 : s.playerId = some ourId) (h2 : mapGet s.players ourId = none) :
    checkProximityGreetings s = s := by
  unfold checkProximityGreetings
  simp only [h1, h2]

theorem checkProx_eq_fold (s : ClientState) (ourId : String) (ourP : Player)
    (h1 : s.playerId = some ourId) (h2 : mapGet s.players ourId = some ourP) :
    checkProximityGreetings s = s.players.foldl (proxStep ourId ourP) s := by
  unfold checkProximityGreetings
  simp only [h1, h2]

theorem checkProx_greetPotential (pid : String) (s : ClientState) :
    greetPotential pid (checkProximityGreetings s) = greetPotential pid s := by
  cases h1 : s.playerId with
  | none => rw [checkProx_unjoined s h1]
  | some ourId =>
    cases h2 : mapGet s.players ourId with
    | none => rw [checkProx_noLocalRecord s ourId h1 h2]
    | some ourP =>
      rw [checkProx_eq_fold s ourId ourP h1 h2]
      exact foldProx_greetPotential ourId pid ourP s.players s

theorem checkProx_flag_mono (pid : String) (s : ClientState)
    (h : pid ∈ s.greetedPlayers) :
    pid ∈ (checkProximityGreetings s).greetedPlayers := by
  cases h1 : s.playerId with
  | none => rw [checkProx_unjoined s h1]; exact h
  | some ourId =>
    cases h2 : mapGet s.players ourId with
    | none => rw [checkProx_noLocalRecord s ourId h1 h2]; exact h
    | some ourP =>
      rw [checkProx_eq_fold s ourId ourP h1 h2]
      exact foldProx_flag_mono ourId pid ourP s.players s h

theorem checkProx_players (s : ClientState) :
    (checkProximityGreetings s).players = s.players := by
  cases h1 : s.playerId with
  | none => rw [checkProx_unjoined s h1]
  | some ourId =>
    cases h2 : mapGet s.players ourId with
    | none => rw [checkProx_noLocalRecord s ourId h1 h2]
    | some ourP =>
      rw [checkProx_eq_fold s ourId ourP h1 h2]
      exact foldProx_players ourId ourP s.players s

theorem checkProx_playerId (s : ClientState) :
    (checkProximityGreetings s).playerId = s.playerId := by
  cases h1 : s.playerId with
  | none => rw [checkProx_unjoined s h1]; exact h1
  | some ourId =>
    cases h2 : mapGet s.players ourId with
    | none => rw [checkProx_noLocalRecord s ourId h1 h2]; exact h1
    | some ourP =>
      rw [checkProx_eq_fold s ourId ourP h1 h2]
      rw [foldProx_playerId ourId ourP s.players s]
      exact h1

theorem checkProx_wire_closed (s : ClientState) (h : s.socketOpen = false) :
    (checkProximityGreetings s).wire = s.wire := by
  cases h1 : s.playerId with
  | none => rw [checkProx_unjoined s h1]
  | some ourId =>
    cases h2 : mapGet s.players ourId with
    | none => rw [checkProx_noLocalRecord s ourId h1 h2]
    | some ourP =>
      rw [checkProx_eq_fold s ourId ourP h1 h2]
      exact (foldProx_wire_closed ourId ourP s.players s h).1

/-- A tick cannot create any trace of a peer id that is absent from the
registry it runs over. -/
theorem checkProx_keyZero (pid : String) (s : ClientState)
    (h : keyCount pid s.players = 0) :
    greetCount pid (checkProximityGreetings s).events = greetCount pid s.events ∧
    farewellCount pid (checkProximityGreetings s).events = farewellCount pid s.events ∧
    ((pid ∈ (checkProximityGreetings s).greetedPlayers) ↔ pid ∈ s.greetedPlayers) ∧
    mapGet (checkProximityGreetings s).playerProximityState pid
      = mapGet s.playerProximityState pid := by
  cases h1 : s.playerId with
  | none => rw [checkProx_unjoined s h1]; exact ⟨rfl, rfl, Iff.rfl, rfl⟩
  | some ourId =>
    cases h2 : mapGet s.players ourId with
    | none => rw [checkProx_noLocalRecord s ourId h1 h2]; exact ⟨rfl, rfl, Iff.rfl, rfl⟩
    | some ourP =>
      rw [checkProx_eq_fold s ourId ourP h1 h2]
      exact foldProx_keyZero ourId pid ourP s.players h s

/-- The per-tick transition of a single registered peer: the Greet delta is 1
exactly on a far-to-near transition with the greeted flag unset, the Farewell
delta is 1 exactly on a near-to-far transition regardless of the flag, and
the flag afterwards is the old flag or-ed with the greet condition. -/
theorem checkProx_delta (s : ClientState) (ourId pid : String) (ourP p : Player)
    (hid : s.playerId = some ourId) (hour : mapGet s.players ourId = some ourP)
    (hne : pid ≠ ourId) (hcount : keyCount pid s.players = 1)
    (hp : mapGet s.players pid = some p) :
    greetCount pid (checkProximityGreetings s).events
      = greetCount pid s.events +
        (if isNear ourP p ∧ currentProx s pid = ProxState.far ∧ pid ∉ s.greetedPlayers
         then 1 else 0) ∧
    farewellCount pid (checkProximityGreetings s).events
      = farewellCount pid s.events +
        (if ¬ isNear ourP p ∧ currentProx s pid = ProxState.near then 1 else 0) ∧
    ((pid ∈ (checkProximityGreetings s).greetedPlayers) ↔
      (pid ∈ s.greetedPlayers ∨
        (isNear ourP p ∧ currentProx s pid = ProxState.far ∧ pid ∉ s.greetedPlayers))) := by
  obtain ⟨l1, v, l2, hm, hz1, hz2⟩ := keyCount_one_decomp s.players pid hcount
  have hv : v = p := by
    have hg : mapGet s.players pid = some v := by
      rw [hm, mapGet_append_keyZero l1 _ pid hz1, mapGet, if_pos rfl]
    rw [hg] at hp
    exact Option.some.inj hp
  rw [hv] at hm
  rw [checkProx_eq_fold s ourId ourP hid hour, hm]
  exact foldProx_delta ourId pid ourP p l1 l2 hz1 hz2 hne s

/-! ### Lemmas about sequences of proximity evaluation ticks -/

theorem runProx_greetPotential (pid : String) (pss : List (List (String × Player))) :
    ∀ s : ClientState, greetPotential pid (runProx pss s) = greetPotential pid s := by
  induction pss with
  | nil => intro s; rfl
  | cons ps rest ih =>
    intro s
    unfold runProx at ih ⊢
    rw [List.foldl_cons, ih]
    exact checkProx_greetPotential pid { s with players := ps }

theorem runProx_flag_mono (pid : String) (pss : List (List (String × Player))) :
    ∀ s : ClientState, pid ∈ s.greetedPlayers → pid ∈ (runProx pss s).greetedPlayers := by
  induction pss with
  | nil => intro s h; exact h
  | cons ps rest ih =>
    intro s h
    unfold runProx at ih ⊢
    rw [List.foldl_cons]
    exact ih _ (checkProx_flag_mono pid { s with players := ps } h)

/-- While the greeted flag is set, no run of ticks ever emits another Greet
for the peer, and the flag stays set. -/
theorem runProx_no_regreet (pid : String) (pss : List (List (String × Player)))
    (s : ClientState) (h : pid ∈ s.greetedPlayers) :
    greetCount pid (runProx pss s).events = greetCount pid s.events ∧
    pid ∈ (runProx pss s).greetedPlayers := by
  have hm := runProx_flag_mono pid pss s h
  have hp := runProx_greetPotential pid pss s
  unfold greetPotential at hp
  rw [if_pos h, if_pos hm] at hp
  exact ⟨by omega, hm⟩

/-- Across any departure-free sequence of ticks, the number of new Greets for
a peer is at most one, and zero if the flag was already set. -/
theorem runProx_atMostOne (pid : String) (pss : List (List (String × Player)))
    (s : ClientState) :
    greetCount pid (runProx pss s).events
      ≤ greetCount pid s.events + (if pid ∈ s.greetedPlayers then 0 else 1) := by
  have hp := runProx_greetPotential pid pss s
  unfold greetPotential at hp
  split_ifs at hp ⊢ <;> omega

/-! ### Lemmas about the movement input machinery -/

theorem sendMoveCommand_eq (d : Direction) (s : ClientState) :
    sendMoveCommand d s =
      { s with wire := s.wire ++ if s.socketOpen then [OutMsg.move d] else [] } := by
  unfold sendMoveCommand
  split_ifs with h
  · rfl
  · simp

theorem getPrimaryDirection_ne_stop (keys : List KeyCode) (c : KeyCode)
    (hc : c.isArrow = true) (hm : c ∈ keys) :
    getPrimaryDirection keys ≠ Direction.stop := by
  cases c <;> simp [KeyCode.isArrow] at hc <;>
    (unfold getPrimaryDirection; split_ifs <;> simp_all)

/-- The `setInterval` handles that would still be live for a given stored
interval handle: exactly the stored one. -/
def timerLedgerOf : Option (ℕ × Direction) → List (ℕ × Direction)
  | some t => [t]
  | none => []

theorem timerLedgerOf_length (o : Option (ℕ × Direction)) :
    (timerLedgerOf o).length ≤ 1 := by
  cases o <;> simp [timerLedgerOf]

/-- Timer sanity: the scheduled timers are exactly the one held in
`movementInterval` (in particular there is at most one). -/
def TimerInv (s : ClientState) : Prop :=
  s.timers = timerLedgerOf s.movementInterval

/-- The held-key set only ever holds arrow keys. -/
def KeysArrow (s : ClientState) : Prop :=
  ∀ k ∈ s.activeKeys, k.isArrow = true

theorem timersErase_single (t : ℕ × Direction) : timersErase [t] t.1 = [] := by
  simp [timersErase]

theorem startCM_inv (s : ClientState) (hInv : TimerInv s)
    (hdir : getPrimaryDirection s.activeKeys ≠ Direction.stop) :
    TimerInv (startContinuousMovement s) := by
  unfold TimerInv at hInv
  cases hmi : s.movementInterval with
  | none =>
    rw [hmi] at hInv
    simp only [timerLedgerOf] at hInv
    simp only [startContinuousMovement, hmi, sendMoveCommand_eq]
    rw [if_pos hdir]
    simp [TimerInv, timerLedgerOf, hInv]
  | some t =>
    rw [hmi] at hInv
    simp only [timerLedgerOf] at hInv
    simp only [startContinuousMovement, hmi, sendMoveCommand_eq]
    rw [if_pos hdir]
    simp [TimerInv, timerLedgerOf, hInv, timersErase_single]

theorem stopCM_inv (s : ClientState) (hInv : TimerInv s) :
    TimerInv (stopContinuousMovement s) := by
  unfold TimerInv at hInv
  cases hmi : s.movementInterval with
  | none =>
    rw [hmi] at hInv
    simp only [timerLedgerOf] at hInv
    simp only [stopContinuousMovement, hmi, sendMoveCommand_eq]
    split_ifs <;> simp [TimerInv, timerLedgerOf, hInv, hmi]
  | some t =>
    rw [hmi] at hInv
    simp only [timerLedgerOf] at hInv
    simp only [stopContinuousMovement, hmi, sendMoveCommand_eq]
    split_ifs <;> simp [TimerInv, timerLedgerOf, hInv, timersErase_single]

theorem startCM_activeKeys (s : ClientState) :
    (startContinuousMovement s).activeKeys = s.activeKeys := by
  cases hmi : s.movementInterval with
  | none =>
    simp only [startContinuousMovement, hmi, sendMoveCommand_eq]
    split_ifs <;> rfl
  | some t =>
    simp only [startContinuousMovement, hmi, sendMoveCommand_eq]
    split_ifs <;> rfl

theorem stopCM_activeKeys (s : ClientState) :
    (stopContinuousMovement s).activeKeys = s.activeKeys := by
  cases hmi : s.movementInterval with
  | none =>
    simp only [stopContinuousMovement, hmi, sendMoveCommand_eq]
    split_ifs <;> rfl
  | some t =>
    simp only [stopContinuousMovement, hmi, sendMoveCommand_eq]
    split_ifs <;> rfl

theorem applyKeyEvent_inv (e : KeyEvent) (s : ClientState)
    (hInv : TimerInv s) (hKeys : KeysArrow s) :
    TimerInv (applyKeyEvent s e) ∧ KeysArrow (applyKeyEvent s e) := by
  cases e with
  | down c =>
    show TimerInv (handleKeyDown c s) ∧ KeysArrow (handleKeyDown c s)
    unfold handleKeyDown
    split_ifs with hc
    · have hKeys1 : KeysArrow { s with activeKeys := setAdd s.activeKeys c } := by
        intro k hk
        rcases (mem_setAdd_iff s.activeKeys k c).mp hk with h | rfl
        · exact hKeys k h
        · exact hc
      have hdir : getPrimaryDirection (setAdd s.activeKeys c) ≠ Direction.stop :=
        getPrimaryDirection_ne_stop _ c hc (mem_setAdd_self _ _)
      refine ⟨startCM_inv _ hInv hdir, ?_⟩
      intro k hk
      rw [startCM_activeKeys] at hk
      exact hKeys1 k hk
    · exact ⟨hInv, hKeys⟩
  | up c =>
    show TimerInv (handleKeyUp c s) ∧ KeysArrow (handleKeyUp c s)
    by_cases hc : c.isArrow = true
    · have hred : handleKeyUp c s =
          (if (setDelete s.activeKeys c) = [] then
            stopContinuousMovement { s with activeKeys := setDelete s.activeKeys c }
          else startContinuousMovement { s with activeKeys := setDelete s.activeKeys c }) := by
        unfold handleKeyUp
        rw [if_pos hc]
      have hInv1 : TimerInv { s with activeKeys := setDelete s.activeKeys c } := hInv
      have hKeys1 : KeysArrow { s with activeKeys := setDelete s.activeKeys c } := by
        intro k hk
        exact hKeys k ((mem_setDelete_iff s.activeKeys k c).mp hk).1
      rw [hred]
      split_ifs with hempty
      · refine ⟨stopCM_inv _ hInv1, ?_⟩
        intro k hk
        rw [stopCM_activeKeys] at hk
        exact hKeys1 k hk
      · have hdir : getPrimaryDirection
            ({ s with activeKeys := setDelete s.activeKeys c } : ClientState).activeKeys
            ≠ Direction.stop := by
          show getPrimaryDirection (setDelete s.activeKeys c) ≠ Direction.stop
          cases hk : setDelete s.activeKeys c with
          | nil => exact absurd hk hempty
          | cons k rest =>
            refine getPrimaryDirection_ne_stop _ k ?_ (List.mem_cons_self _ _)
            have hkmem : k ∈ setDelete s.activeKeys c := by
              rw [hk]; exact List.mem_cons_self _ _
            exact hKeys k ((mem_setDelete_iff s.activeKeys k c).mp hkmem).1
        refine ⟨startCM_inv _ hInv1 hdir, ?_⟩
        intro k hk
        rw [startCM_activeKeys] at hk
        exact hKeys1 k hk
    · have hred : handleKeyUp c s = s := by
        unfold handleKeyUp
        rw [if_neg hc]
      rw [hred]
      exact ⟨hInv, hKeys⟩

theorem runKeys_inv (evs : List KeyEvent) :
    ∀ s : ClientState, TimerInv s → KeysArrow s →
      TimerInv (runKeys evs s) ∧ KeysArrow (runKeys evs s) := by
  induction evs with
  | nil => intro s h1 h2; exact ⟨h1, h2⟩
  | cons e rest ih =>
    intro s h1 h2
    unfold runKeys at ih ⊢
    rw [List.foldl_cons]
    obtain ⟨g1, g2⟩ := applyKeyEvent_inv e s h1 h2
    exact ih _ g1 g2

/-! ### Lemmas about `draw` and the message handlers -/

theorem draw_players (s : ClientState) : (draw s).players = s.players := by
  unfold draw
  split_ifs with h
  · exact checkProx_players s
  · rfl

theorem draw_playerId (s : ClientState) : (draw s).playerId = s.playerId := by
  unfold draw
  split_ifs with h
  · exact checkProx_playerId s
  · rfl

theorem draw_keyZero (pid : String) (s : ClientState) (h : keyCount pid s.players = 0) :
    ((pid ∈ (draw s).greetedPlayers) ↔ pid ∈ s.greetedPlayers) ∧
    mapGet (draw s).playerProximityState pid = mapGet s.playerProximityState pid := by
  unfold draw
  split_ifs with h2
  · exact ⟨(checkProx_keyZero pid s h).2.2.1, (checkProx_keyZero pid s h).2.2.2⟩
  · exact ⟨Iff.rfl, rfl⟩

theorem updateViewport_players (s : ClientState) :
    (updateViewport s).players = s.players := rfl

theorem handlePlayersMoved_single_players (s : ClientState) (pid : String) (p : Player) :
    (handlePlayersMoved (some [(pid, p)]) s).players = mapSet s.players pid p := by
  unfold handlePlayersMoved
  rw [draw_players]
  simp only [List.foldl_cons, List.foldl_nil]
  split_ifs with h <;> rfl

/-! ### Concrete test fixtures used by the claim witnesses -/

/-- The local player, standing at the origin. -/
def pA : Player :=
  { id := "A", x := 0, y := 0, facing := Facing.south, animationFrame := 0
    username := "A", avatar := "av" }

/-- A peer 50 pixels away (inside the 100 pixel greeting radius). -/
def pBnear : Player :=
  { id := "B", x := 0, y := 50, facing := Facing.south, animationFrame := 0
    username := "B", avatar := "av" }

/-- The same peer 500 pixels away (outside the greeting radius). -/
def pBfar : Player :=
  { id := "B", x := 0, y := 500, facing := Facing.south, animationFrame := 0
    username := "B", avatar := "av" }

/-- A joined client with local player A and peer B in range. -/
def sTest : ClientState :=
  { initialState 800 600 with
    playerId := some "A"
    players := [("A", pA), ("B", pBnear)]
    socketOpen := true
    worldImageLoaded := true }

/-- The test state with peer B out of range but recorded as near and already
greeted (a pending near-to-far transition). -/
def sTestFarNear : ClientState :=
  { sTest with
    players := [("A", pA), ("B", pBfar)]
    playerProximityState := [("B", ProxState.near)]
    greetedPlayers := ["B"] }

/-- The test state with the socket not open. -/
def sTestClosed : ClientState :=
  { sTest with socketOpen := false }

/-! ### The claims -/

/-- Claim C2: for every local player position, world size and view size, the
computed viewport origin equals `clamp(pos - view/2, 0, world - view)` on
each axis (`clampSpec`, modelled from the spec), the lower bound 0 wins when
the world is smaller than the view, and for world 2048 by 2048 with view 800
by 600 the positions (0,0), (2048,2048) and (1024,1024) give origins (0,0),
(1248,1448) and (624,724). -/
theorem claim_C2 (s : ClientState) :
    (updateViewport s).viewport.1
        = clampSpec (s.playerPosition.1 - s.canvasWidth / 2) 0 (s.worldWidth - s.canvasWidth) ∧
    (updateViewport s).viewport.2
        = clampSpec (s.playerPosition.2 - s.canvasHeight / 2) 0 (s.worldHeight - s.canvasHeight) ∧
    (s.worldWidth < s.canvasWidth → (updateViewport s).viewport.1 = 0) ∧
    (s.worldHeight < s.canvasHeight → (updateViewport s).viewport.2 = 0) ∧
    (updateViewport { initialState 800 600 with playerPosition := (0, 0) }).viewport
        = (0, 0) ∧
    (updateViewport { initialState 800 600 with playerPosition := (2048, 2048) }).viewport
        = (1248, 1448) ∧
    (updateViewport { initialState 800 600 with playerPosition := (1024, 1024) }).viewport
        = (624, 724) := by
  refine ⟨rfl, rfl, ?_, ?_, ?_, ?_, ?_⟩
  · intro h
    have hmin : min (s.playerPosition.1 - s.canvasWidth / 2) (s.worldWidth - s.canvasWidth)
        ≤ s.worldWidth - s.canvasWidth := min_le_right _ _
    show max 0 (min (s.playerPosition.1 - s.canvasWidth / 2) (s.worldWidth - s.canvasWidth)) = 0
    exact max_eq_left (by linarith)
  · intro h
    have hmin : min (s.playerPosition.2 - s.canvasHeight / 2) (s.worldHeight - s.canvasHeight)
        ≤ s.worldHeight - s.canvasHeight := min_le_right _ _
    show max 0 (min (s.playerPosition.2 - s.canvasHeight / 2) (s.worldHeight - s.canvasHeight)) = 0
    exact max_eq_left (by linarith)
  · show ((max 0 (min ((0 : ℚ) - 800 / 2) (2048 - 800)),
           max 0 (min ((0 : ℚ) - 600 / 2) (2048 - 600))) : ℚ × ℚ) = (0, 0)
    norm_num
  · show ((max 0 (min ((2048 : ℚ) - 800 / 2) (2048 - 800)),
           max 0 (min ((2048 : ℚ) - 600 / 2) (2048 - 600))) : ℚ × ℚ) = (1248, 1448)
    rw [Prod.mk.injEq]
    constructor <;> rw [min_eq_right (by norm_num), max_eq_right (by norm_num)] <;> norm_num
  · show ((max 0 (min ((1024 : ℚ) - 800 / 2) (2048 - 800)),
           max 0 (min ((1024 : ℚ) - 600 / 2) (2048 - 600))) : ℚ × ℚ) = (624, 724)
    rw [Prod.mk.injEq]
    constructor <;> rw [min_eq_left (by norm_num), max_eq_right (by norm_num)] <;> norm_num

/-- Witness for claim C2's degenerate-world hypothesis: with a 4000 wide view
and the fixed 2048 wide world, the origin x is clamped to 0. -/
theorem claim_C2_witness :
    (initialState 4000 4000).worldWidth < (initialState 4000 4000).canvasWidth ∧
    (updateViewport (initialState 4000 4000)).viewport.1 = 0 :=
  ⟨by norm_num [initialState],
   (claim_C2 (initialState 4000 4000)).2.2.1 (by norm_num [initialState])⟩

/-- Counterexample to claim C3: holding Up (direction up, timer 0 active) and
then pressing Down recomputes the same primary direction up, yet the code
emits a second immediate `move up` command and restarts the retransmission
timer (handle 0 is replaced by handle 1) — the claimed edge-triggering does
not exist on key-down. -/
theorem claim_C3_counterexample :
    getPrimaryDirection (handleKeyDown KeyCode.arrowDown
        (handleKeyDown KeyCode.arrowUp
          { initialState 800 600 with socketOpen := true })).activeKeys
      = getPrimaryDirection (handleKeyDown KeyCode.arrowUp
          { initialState 800 600 with socketOpen := true }).activeKeys ∧
    (handleKeyDown KeyCode.arrowUp
        { initialState 800 600 with socketOpen := true }).wire
      = [OutMsg.move Direction.up] ∧
    (handleKeyDown KeyCode.arrowDown
        (handleKeyDown KeyCode.arrowUp
          { initialState 800 600 with socketOpen := true })).wire
      = [OutMsg.move Direction.up, OutMsg.move Direction.up] ∧
    (handleKeyDown KeyCode.arrowDown
        (handleKeyDown KeyCode.arrowUp
          { initialState 800 600 with socketOpen := true })).wire
      ≠ (handleKeyDown KeyCode.arrowUp
          { initialState 800 600 with socketOpen := true }).wire ∧
    (handleKeyDown KeyCode.arrowUp
        { initialState 800 600 with socketOpen := true }).movementInterval
      = some (0, Direction.up) ∧
    (handleKeyDown KeyCode.arrowDown
        (handleKeyDown KeyCode.arrowUp
          { initialState 800 600 with socketOpen := true })).movementInterval
      = some (1, Direction.up) := by
  decide

/-- Claim C3 as amended: on every arrow key-down with the socket open, the
client unconditionally cancels any existing retransmission timer, emits one
immediate move command for the recomputed primary direction (which is never
stop once an arrow key is held), and starts a fresh retransmission timer —
even when that direction equals the direction already being sent. -/
theorem claim_C3 (s : ClientState) (c : KeyCode)
    (hc : c.isArrow = true) (hso : s.socketOpen = true) :
    (handleKeyDown c s).wire
        = s.wire ++ [OutMsg.move (getPrimaryDirection (setAdd s.activeKeys c))] ∧
    (handleKeyDown c s).movementInterval
        = some (s.nextTimerId, getPrimaryDirection (setAdd s.activeKeys c)) ∧
    (handleKeyDown c s).nextTimerId = s.nextTimerId + 1 ∧
    (handleKeyDown c s).isMoving = true := by
  have hdir : getPrimaryDirection (setAdd s.activeKeys c) ≠ Direction.stop :=
    getPrimaryDirection_ne_stop _ c hc (mem_setAdd_self _ _)
  unfold handleKeyDown
  rw [if_pos hc]
  cases hmi : s.movementInterval with
  | none =>
    simp only [startContinuousMovement, hmi, sendMoveCommand_eq]
    rw [if_pos hdir]
    simp [hso]
  | some t =>
    simp only [startContinuousMovement, hmi, sendMoveCommand_eq]
    rw [if_pos hdir]
    simp [hso]

/-- Witness for claim C3 at a concrete input: pressing Left in the freshly
connected state. -/
theorem claim_C3_witness :
    (KeyCode.arrowLeft.isArrow = true ∧
      ({ initialState 800 600 with socketOpen := true } : ClientState).socketOpen = true) ∧
    ((handleKeyDown KeyCode.arrowLeft
        { initialState 800 600 with socketOpen := true }).wire
      = ({ initialState 800 600 with socketOpen := true } : ClientState).wire ++
          [OutMsg.move (getPrimaryDirection
            (setAdd ({ initialState 800 600 with socketOpen := true } : ClientState).activeKeys
              KeyCode.arrowLeft))] ∧
    (handleKeyDown KeyCode.arrowLeft
        { initialState 800 600 with socketOpen := true }).movementInterval
      = some (({ initialState 800 600 with socketOpen := true } : ClientState).nextTimerId,
          getPrimaryDirection
            (setAdd ({ initialState 800 600 with socketOpen := true } : ClientState).activeKeys
              KeyCode.arrowLeft)) ∧
    (handleKeyDown KeyCode.arrowLeft
        { initialState 800 600 with socketOpen := true }).nextTimerId
      = ({ initialState 800 600 with socketOpen := true } : ClientState).nextTimerId + 1 ∧
    (handleKeyDown KeyCode.arrowLeft
        { initialState 800 600 with socketOpen := true }).isMoving = true) :=
  ⟨⟨by decide, by decide⟩,
   claim_C3 { initialState 800 600 with socketOpen := true } KeyCode.arrowLeft
     (by decide) (by decide)⟩

/-- Claim C5: the emitted direction is the first held arrow key in the fixed
priority order up, down, left, right (independent of press order, i.e. only
the membership of the held-key set matters), stop when none is held; and in
the concrete scenario, holding Down then Left emits direction down, releasing
Down emits left, and releasing Left emits exactly one stop and cancels the
retransmission timer. -/
theorem claim_C5 :
    (∀ keys : List KeyCode, KeyCode.arrowUp ∈ keys →
      getPrimaryDirection keys = Direction.up) ∧
    (∀ keys : List KeyCode, KeyCode.arrowUp ∉ keys → KeyCode.arrowDown ∈ keys →
      getPrimaryDirection keys = Direction.down) ∧
    (∀ keys : List KeyCode, KeyCode.arrowUp ∉ keys → KeyCode.arrowDown ∉ keys →
      KeyCode.arrowLeft ∈ keys → getPrimaryDirection keys = Direction.left) ∧
    (∀ keys : List KeyCode, KeyCode.arrowUp ∉ keys → KeyCode.arrowDown ∉ keys →
      KeyCode.arrowLeft ∉ keys → KeyCode.arrowRight ∈ keys →
      getPrimaryDirection keys = Direction.right) ∧
    (∀ keys : List KeyCode, KeyCode.arrowUp ∉ keys → KeyCode.arrowDown ∉ keys →
      KeyCode.arrowLeft ∉ keys → KeyCode.arrowRight ∉ keys →
      getPrimaryDirection keys = Direction.stop) ∧
    (∀ ks ks' : List KeyCode, (∀ k, k ∈ ks ↔ k ∈ ks') →
      getPrimaryDirection ks = getPrimaryDirection ks') ∧
    (getPrimaryDirection (handleKeyDown KeyCode.arrowLeft
        (handleKeyDown KeyCode.arrowDown
          { initialState 800 600 with socketOpen := true })).activeKeys
      = Direction.down ∧
    (handleKeyDown KeyCode.arrowLeft
        (handleKeyDown KeyCode.arrowDown
          { initialState 800 600 with socketOpen := true })).wire
      = [OutMsg.move Direction.down, OutMsg.move Direction.down] ∧
    (handleKeyUp KeyCode.arrowDown (handleKeyDown KeyCode.arrowLeft
        (handleKeyDown KeyCode.arrowDown
          { initialState 800 600 with socketOpen := true }))).wire
      = [OutMsg.move Direction.down, OutMsg.move Direction.down,
         OutMsg.move Direction.left] ∧
    (handleKeyUp KeyCode.arrowLeft (handleKeyUp KeyCode.arrowDown
        (handleKeyDown KeyCode.arrowLeft
          (handleKeyDown KeyCode.arrowDown
            { initialState 800 600 with socketOpen := true })))).wire
      = [OutMsg.move Direction.down, OutMsg.move Direction.down,
         OutMsg.move Direction.left, OutMsg.move Direction.stop] ∧
    (handleKeyUp KeyCode.arrowLeft (handleKeyUp KeyCode.arrowDown
        (handleKeyDown KeyCode.arrowLeft
          (handleKeyDown KeyCode.arrowDown
            { initialState 800 600 with socketOpen := true })))).movementInterval
      = none ∧
    (handleKeyUp KeyCode.arrowLeft (handleKeyUp KeyCode.arrowDown
        (handleKeyDown KeyCode.arrowLeft
          (handleKeyDown KeyCode.arrowDown
            { initialState 800 600 with socketOpen := true })))).timers = [] ∧
    (handleKeyUp KeyCode.arrowLeft (handleKeyUp KeyCode.arrowDown
        (handleKeyDown KeyCode.arrowLeft
          (handleKeyDown KeyCode.arrowDown
            { initialState 800 600 with socketOpen := true })))).isMoving = false) := by
  refine ⟨?_, ?_, ?_, ?_, ?_, ?_, ?_⟩
  · intro keys h
    unfold getPrimaryDirection
    rw [if_pos h]
  · intro keys h1 h2
    unfold getPrimaryDirection
    rw [if_neg h1, if_pos h2]
  · intro keys h1 h2 h3
    unfold getPrimaryDirection
    rw [if_neg h1, if_neg h2, if_pos h3]
  · intro keys h1 h2 h3 h4
    unfold getPrimaryDirection
    rw [if_neg h1, if_neg h2, if_neg h3, if_pos h4]
  · intro keys h1 h2 h3 h4
    unfold getPrimaryDirection
    rw [if_neg h1, if_neg h2, if_neg h3, if_neg h4]
  · intro ks ks' h
    unfold getPrimaryDirection
    simp only [h KeyCode.arrowUp, h KeyCode.arrowDown, h KeyCode.arrowLeft,
      h KeyCode.arrowRight]
  · decide

/-- Witness for claim C5's priority hypotheses: held keys Down and Left give
direction down. -/
theorem claim_C5_witness :
    (KeyCode.arrowUp ∉ [KeyCode.arrowDown, KeyCode.arrowLeft] ∧
      KeyCode.arrowDown ∈ [KeyCode.arrowDown, KeyCode.arrowLeft]) ∧
    getPrimaryDirection [KeyCode.arrowDown, KeyCode.arrowLeft] = Direction.down :=
  ⟨⟨by decide, by decide⟩,
   claim_C5.2.1 [KeyCode.arrowDown, KeyCode.arrowLeft] (by decide) (by decide)⟩

/-- Counterexample to claim C7: the inbound `join_game` message
`{action, success: true, playerId: "p1"}` is missing the required `players`
field, yet processing it mutates the local identity (from none to "p1")
before the access of the missing field throws — malformed messages are not
dropped without state mutation. -/
theorem claim_C7_counterexample :
    (onMessage (some (InMsg.joinGame
        { success := true, playerId := some "p1", players := none,
          avatars := none, errorText := none }))
      (initialState 800 600)).playerId ≠ (initialState 800 600).playerId ∧
    (onMessage (some (InMsg.joinGame
        { success := true, playerId := some "p1", players := none,
          avatars := none, errorText := none }))
      (initialState 800 600)).playerId = some "p1" ∧
    (initialState 800 600).playerId = none := by
  decide

/-- Claim C7 as amended: a message that fails to parse is dropped with no
state mutation; a parsed message missing a required field aborts processing
at the point the missing field is accessed, and the mutations already made
persist — a `join_game` success response missing `players` still overwrites
the local identity, a `player_joined` with a player but no avatar still
inserts the player, while handlers that access the missing field before
mutating anything (`players_moved` without `players`, `player_joined`
without `player`) leave the state unchanged. -/
theorem claim_C7 :
    (∀ s : ClientState, onMessage none s = s) ∧
    (∀ s : ClientState, handleMessage (InMsg.playersMoved none) s = s) ∧
    (∀ (s : ClientState) (pid? : Option String) (avs? : Option (List (String × Avatar)))
        (err? : Option String),
      handleMessage (InMsg.joinGame
          { success := true, playerId := pid?, players := none,
            avatars := avs?, errorText := err? }) s
        = { s with playerId := pid? }) ∧
    (∀ (s : ClientState) (p : Player),
      handleMessage (InMsg.playerJoined (some p) none) s
        = { s with players := mapSet s.players p.id p }) ∧
    (∀ (s : ClientState) (a? : Option Avatar),
      handleMessage (InMsg.playerJoined none a?) s = s) :=
  ⟨fun _ => rfl, fun _ => rfl, fun _ _ _ _ => rfl, fun _ _ => rfl, fun _ _ => rfl⟩

/-- Claim C8: after any sequence of key-down and key-up events from the
initial state, the scheduled retransmission timers are exactly the one held
in `movementInterval`; in particular at most one timer is ever active. -/
theorem claim_C8 (cw ch : ℚ) (evs : List KeyEvent) :
    (runKeys evs (initialState cw ch)).timers
      = timerLedgerOf (runKeys evs (initialState cw ch)).movementInterval ∧
    (runKeys evs (initialState cw ch)).timers.length ≤ 1 := by
  have h0 : TimerInv (initialState cw ch) := rfl
  have h1 : KeysArrow (initialState cw ch) := by
    intro k hk
    exact absurd hk (List.not_mem_nil k)
  obtain ⟨hInv, _⟩ := runKeys_inv evs (initialState cw ch) h0 h1
  refine ⟨hInv, ?_⟩
  rw [hInv]
  exact timerLedgerOf_length _

/-- Claim C9: the per-id full-record upsert is idempotent — applying the same
player-update record twice gives the same registry as applying it once, both
for the bare registry operation and through the `players_moved` handler. -/
theorem claim_C9 :
    (∀ (m : List (String × Player)) (pid : String) (p : Player),
      applyPlayerUpdate (applyPlayerUpdate m pid p) pid p = applyPlayerUpdate m pid p) ∧
    (∀ (s : ClientState) (pid : String) (p : Player),
      (handlePlayersMoved (some [(pid, p)]) (handlePlayersMoved (some [(pid, p)]) s)).players
        = (handlePlayersMoved (some [(pid, p)]) s).players) := by
  refine ⟨fun m pid p => mapSet_idem m pid p, fun s pid p => ?_⟩
  rw [handlePlayersMoved_single_players, handlePlayersMoved_single_players]
  exact mapSet_idem _ _ _

/-- After a departure has wiped a peer's traces, upserting a fresh record for
it and running one tick with the peer in range emits exactly one new Greet:
the fresh entry defaults to far and its greeted flag is unset. -/
theorem regreet_after_fresh (s1 : ClientState) (ourId pid : String) (ourP p : Player)
    (hid : s1.playerId = some ourId) (hne : pid ≠ ourId)
    (hour : mapGet s1.players ourId = some ourP)
    (hkz : keyCount pid s1.players = 0)
    (hflag : pid ∉ s1.greetedPlayers)
    (hprox : mapGet s1.playerProximityState pid = none)
    (hnear : isNear ourP p) :
    greetCount pid (checkProximityGreetings
        { s1 with players := mapSet s1.players pid p }).events
      = greetCount pid s1.events + 1 := by
  have hA : ({ s1 with players := mapSet s1.players pid p } : ClientState).playerId
      = some ourId := hid
  have hB : mapGet ({ s1 with players := mapSet s1.players pid p } : ClientState).players ourId
      = some ourP := by
    show mapGet (mapSet s1.players pid p) ourId = some ourP
    rw [mapGet_mapSet_ne s1.players pid ourId p hne]
    exact hour
  have hC : keyCount pid ({ s1 with players := mapSet s1.players pid p } : ClientState).players
      = 1 := keyCount_mapSet_self s1.players pid p hkz
  have hD : mapGet ({ s1 with players := mapSet s1.players pid p } : ClientState).players pid
      = some p := mapGet_mapSet_self s1.players pid p
  have hd := checkProx_delta { s1 with players := mapSet s1.players pid p }
    ourId pid ourP p hA hB hne hC hD
  have hfar : currentProx ({ s1 with players := mapSet s1.players pid p } : ClientState) pid
      = ProxState.far := by
    unfold currentProx
    show (mapGet s1.playerProximityState pid).getD ProxState.far = ProxState.far
    rw [hprox]
    rfl
  rw [hd.1, if_pos ⟨hnear, hfar, hflag⟩]

/-- Claim C1: a peer is greeted at most once per departure-free lifetime.
While the greeted flag is set no tick sequence emits another Greet and the
flag stays set; over any departure-free tick sequence the number of new
Greets is at most one (zero if the flag was set); and in any single tick a
registered peer's Greet delta is exactly 1 when it transitions far-to-near
with the flag unset, and exactly 0 otherwise. -/
theorem claim_C1 (s : ClientState) (pid : String)
    (pss : List (List (String × Player))) :
    (pid ∈ s.greetedPlayers →
      greetCount pid (runProx pss s).events = greetCount pid s.events ∧
      pid ∈ (runProx pss s).greetedPlayers) ∧
    greetCount pid (runProx pss s).events
      ≤ greetCount pid s.events + (if pid ∈ s.greetedPlayers then 0 else 1) ∧
    (∀ (ourId : String) (ourP p : Player),
      s.playerId = some ourId → mapGet s.players ourId = some ourP →
      pid ≠ ourId → keyCount pid s.players = 1 → mapGet s.players pid = some p →
      greetCount pid (checkProximityGreetings s).events
        = greetCount pid s.events +
          (if isNear ourP p ∧ currentProx s pid = ProxState.far ∧ pid ∉ s.greetedPlayers
           then 1 else 0)) := by
  refine ⟨fun h => runProx_no_regreet pid pss s h, runProx_atMostOne pid pss s, ?_⟩
  intro ourId ourP p h1 h2 h3 h4 h5
  exact (checkProx_delta s ourId pid ourP p h1 h2 h3 h4 h5).1

/-- Witness for claim C1 at a concrete input: the joined test state with peer
B fifty pixels away. -/
theorem claim_C1_witness :
    (sTest.playerId = some "A" ∧ mapGet sTest.players "A" = some pA ∧
      "B" ≠ "A" ∧ keyCount "B" sTest.players = 1 ∧
      mapGet sTest.players "B" = some pBnear) ∧
    greetCount "B" (checkProximityGreetings sTest).events
      = greetCount "B" sTest.events +
        (if isNear pA pBnear ∧ currentProx sTest "B" = ProxState.far ∧
            "B" ∉ sTest.greetedPlayers then 1 else 0) :=
  ⟨⟨rfl, by decide, by decide, by decide, by decide⟩,
   (claim_C1 sTest "B" []).2.2 "A" pA pBnear rfl (by decide) (by decide) (by decide)
     (by decide)⟩

/-- Claim C6: in any tick, a registered peer's Farewell delta is exactly 1 on
a near-to-far transition and exactly 0 otherwise — the condition never
consults the greeted flag or any history, so farewells fire on every such
transition without deduplication. -/
theorem claim_C6 (s : ClientState) (ourId pid : String) (ourP p : Player)
    (hid : s.playerId = some ourId) (hour : mapGet s.players ourId = some ourP)
    (hne : pid ≠ ourId) (hcount : keyCount pid s.players = 1)
    (hp : mapGet s.players pid = some p) :
    farewellCount pid (checkProximityGreetings s).events
      = farewellCount pid s.events +
        (if ¬ isNear ourP p ∧ currentProx s pid = ProxState.near then 1 else 0) :=
  (checkProx_delta s ourId pid ourP p hid hour hne hcount hp).2.1

/-- Witness for claim C6 at a concrete input: peer B, already greeted and
currently near, standing 500 pixels away. -/
theorem claim_C6_witness :
    (sTestFarNear.playerId = some "A" ∧ mapGet sTestFarNear.players "A" = some pA ∧
      "B" ≠ "A" ∧ keyCount "B" sTestFarNear.players = 1 ∧
      mapGet sTestFarNear.players "B" = some pBfar) ∧
    farewellCount "B" (checkProximityGreetings sTestFarNear).events
      = farewellCount "B" sTestFarNear.events +
        (if ¬ isNear pA pBfar ∧ currentProx sTestFarNear "B" = ProxState.near
         then 1 else 0) :=
  ⟨⟨rfl, by decide, by decide, by decide, by decide⟩,
   claim_C6 sTestFarNear "A" "B" pA pBfar rfl (by decide) (by decide) (by decide)
     (by decide)⟩

/-- Claim C10: with the socket closed, a far-to-near transition with the flag
unset sends nothing on the wire, yet the greeted flag is still set (the Greet
event is recorded by the engine but its chat is silently discarded), and no
later tick sequence ever emits another Greet for that peer while it does not
depart. -/
theorem claim_C10 (s : ClientState) (ourId pid : String) (ourP p : Player)
    (hso : s.socketOpen = false)
    (hid : s.playerId = some ourId) (hour : mapGet s.players ourId = some ourP)
    (hne : pid ≠ ourId) (hcount : keyCount pid s.players = 1)
    (hp : mapGet s.players pid = some p)
    (hnear : isNear ourP p) (hfar : currentProx s pid = ProxState.far)
    (hflag : pid ∉ s.greetedPlayers) :
    (checkProximityGreetings s).wire = s.wire ∧
    greetCount pid (checkProximityGreetings s).events = greetCount pid s.events + 1 ∧
    pid ∈ (checkProximityGreetings s).greetedPlayers ∧
    (∀ pss : List (List (String × Player)),
      greetCount pid (runProx pss (checkProximityGreetings s)).events
        = greetCount pid (checkProximityGreetings s).events ∧
      pid ∈ (runProx pss (checkProximityGreetings s)).greetedPlayers) := by
  have hd := checkProx_delta s ourId pid ourP p hid hour hne hcount hp
  have hafter : pid ∈ (checkProximityGreetings s).greetedPlayers :=
    hd.2.2.mpr (Or.inr ⟨hnear, hfar, hflag⟩)
  refine ⟨checkProx_wire_closed s hso, ?_, hafter,
    fun pss => runProx_no_regreet pid pss _ hafter⟩
  rw [hd.1, if_pos ⟨hnear, hfar, hflag⟩]

/-- Witness for claim C10 at a concrete input: the test state with the socket
closed and peer B in range, ungreeted. -/
theorem claim_C10_witness :
    (sTestClosed.socketOpen = false ∧ sTestClosed.playerId = some "A" ∧
      mapGet sTestClosed.players "A" = some pA ∧ "B" ≠ "A" ∧
      keyCount "B" sTestClosed.players = 1 ∧
      mapGet sTestClosed.players "B" = some pBnear ∧
      isNear pA pBnear ∧ currentProx sTestClosed "B" = ProxState.far ∧
      "B" ∉ sTestClosed.greetedPlayers) ∧
    ((checkProximityGreetings sTestClosed).wire = sTestClosed.wire ∧
    greetCount "B" (checkProximityGreetings sTestClosed).events
      = greetCount "B" sTestClosed.events + 1 ∧
    "B" ∈ (checkProximityGreetings sTestClosed).greetedPlayers ∧
    (∀ pss : List (List (String × Player)),
      greetCount "B" (runProx pss (checkProximityGreetings sTestClosed)).events
        = greetCount "B" (checkProximityGreetings sTestClosed).events ∧
      "B" ∈ (runProx pss (checkProximityGreetings sTestClosed)).greetedPlayers)) :=
  ⟨⟨rfl, rfl, by decide, by decide, by decide, by decide,
    by norm_num [isNear, distSq, proximityThreshold, pA, pBnear], by decide, by decide⟩,
   claim_C10 sTestClosed "A" "B" pA pBnear rfl rfl (by decide) (by decide) (by decide)
     (by decide) (by norm_num [isNear, distSq, proximityThreshold, pA, pBnear])
     (by decide) (by decide)⟩

/-- Claim C4: after `handlePlayerLeft` for a peer, no trace of it remains in
the player registry, the greeted set, or the proximity map; and a subsequent
upsert of the same id is a fresh entry — one tick with the peer in range
emits a Greet again. -/
theorem claim_C4 (s : ClientState) (ourId pid : String) (ourP p : Player)
    (hid : s.playerId = some ourId) (hne : pid ≠ ourId)
    (hour : mapGet s.players ourId = some ourP) (hnear : isNear ourP p) :
    mapGet (handlePlayerLeft (some pid) s).players pid = none ∧
    pid ∉ (handlePlayerLeft (some pid) s).greetedPlayers ∧
    mapGet (handlePlayerLeft (some pid) s).playerProximityState pid = none ∧
    greetCount pid (checkProximityGreetings
        { handlePlayerLeft (some pid) s with
          players := applyPlayerUpdate (handlePlayerLeft (some pid) s).players pid p }).events
      = greetCount pid (handlePlayerLeft (some pid) s).events + 1 := by
  have hstep : handlePlayerLeft (some pid) s =
      draw { s with
        players := mapDelete s.players pid
        greetedPlayers := setDelete s.greetedPlayers pid
        playerProximityState := mapDelete s.playerProximityState pid } := rfl
  rw [hstep]
  set sDel : ClientState := { s with
    players := mapDelete s.players pid
    greetedPlayers := setDelete s.greetedPlayers pid
    playerProximityState := mapDelete s.playerProximityState pid } with hsDel
  have hkz : keyCount pid sDel.players = 0 := keyCount_mapDelete s.players pid
  have hP : (draw sDel).players = mapDelete s.players pid := draw_players sDel
  have hId : (draw sDel).playerId = some ourId := by
    rw [draw_playerId]
    exact hid
  have hGZ := draw_keyZero pid sDel hkz
  have hNotMem : pid ∉ (draw sDel).greetedPlayers := by
    intro hmem
    exact ((mem_setDelete_iff s.greetedPlayers pid pid).mp (hGZ.1.mp hmem)).2 rfl
  have hProxNone : mapGet (draw sDel).playerProximityState pid = none := by
    rw [hGZ.2]
    exact mapGet_mapDelete_self s.playerProximityState pid
  have hOur1 : mapGet (draw sDel).players ourId = some ourP := by
    rw [hP, mapGet_mapDelete_ne s.players pid ourId hne]
    exact hour
  have hkz2 : keyCount pid (draw sDel).players = 0 := by
    rw [hP]
    exact keyCount_mapDelete s.players pid
  refine ⟨?_, hNotMem, hProxNone, ?_⟩
  · rw [hP]
    exact mapGet_mapDelete_self s.players pid
  · exact regreet_after_fresh (draw sDel) ourId pid ourP p hId hne hOur1 hkz2
      hNotMem hProxNone hnear

/-- Witness for claim C4 at a concrete input: peer B (greeted and recorded
near) departs and then rejoins 50 pixels away. -/
theorem claim_C4_witness :
    (sTestFarNear.playerId = some "A" ∧ "B" ≠ "A" ∧
      mapGet sTestFarNear.players "A" = some pA ∧ isNear pA pBnear) ∧
    (mapGet (handlePlayerLeft (some "B") sTestFarNear).players "B" = none ∧
    "B" ∉ (handlePlayerLeft (some "B") sTestFarNear).greetedPlayers ∧
    mapGet (handlePlayerLeft (some "B") sTestFarNear).playerProximityState "B" = none ∧
    greetCount "B" (checkProximityGreetings
        { handlePlayerLeft (some "B") sTestFarNear with
          players := applyPlayerUpdate
            (handlePlayerLeft (some "B") sTestFarNear).players "B" pBnear }).events
      = greetCount "B" (handlePlayerLeft (some "B") sTestFarNear).events + 1) :=
  ⟨⟨rfl, by decide, by decide,
    by norm_num [isNear, distSq, proximityThreshold, pA, pBnear]⟩,
   claim_C4 sTestFarNear "A" "B" pA pBnear rfl (by decide) (by decide)
     (by norm_num [isNear, distSq, proximityThreshold, pA, pBnear])⟩

end GameClient
